import Mathlib

/-!
Verification of the real-time streaming and device-arbitration core of the
RTL-SDR FM radio application (`rtlsdr_fm_radio_gui.py`).

The relevant Python routines are shallowly embedded as executable Lean
definitions: pure data manipulation becomes Lean functions over `List ℕ`
(byte strings, one natural per byte), the loop body of `stream_audio`
becomes a function from a read chunk to the writes performed in that
cycle, stateful teardown routines become explicit state-passing
functions, and strictly sequenced side effects (pipe closes, engine
stop, display updates) are recorded as event traces in statement order.
NumPy's float32 volume arithmetic (`samples * vol` with the scalar cast
to float32, `clip`, `astype(int16)`) is embedded bit-faithfully: the
volume factor and each product are rounded to the nearest float32
(ties to even) before the clip and the truncating C cast, all carried
out exactly over `ℚ`.
-/

namespace Radio

/-- One stereo PCM frame: two interleaved signed 16-bit samples, 4 bytes. -/
def frameSize : ℕ := 4

/-- Reinterpret a 16-bit unsigned value as a signed 16-bit sample
(two's complement), as `np.frombuffer(..., dtype=np.int16)` does. -/
def toSigned16 (u : ℕ) : ℤ :=
  if u % 65536 < 32768 then (u % 65536 : ℤ) else (u % 65536 : ℤ) - 65536

/-- Decode a little-endian byte string into int16 samples, two bytes per
sample (`np.frombuffer(audio_data, dtype=np.int16)`). -/
def bytesToSamples : List ℕ → List ℤ
  | b0 :: b1 :: rest => toSigned16 (b0 % 256 + 256 * (b1 % 256)) :: bytesToSamples rest
  | _ => []

/-- Encode one int16 sample back to two little-endian bytes
(`samples.astype(np.int16).tobytes()`). -/
def sampleToBytes (s : ℤ) : List ℕ :=
  [((s % 65536).toNat) % 256, ((s % 65536).toNat) / 256]

/-- Encode a sample vector to a little-endian byte string. -/
def samplesToBytes (l : List ℤ) : List ℕ :=
  (l.map sampleToBytes).flatten

/-- `stream_audio` frame alignment: if the chunk length is not a multiple
of the 4-byte stereo frame, drop the trailing bytes
(`audio_data[:len(audio_data) - (len(audio_data) % 4)]`; a no-op when the
length is already aligned). -/
def alignChunk (c : List ℕ) : List ℕ :=
  c.take (c.length - c.length % frameSize)

/-- `np.clip(samples, -32768.0, 32767.0)` on an exact rational value. -/
def clipQ (q : ℚ) : ℚ := max (-32768) (min 32767 q)

/-- Truncation toward zero, the semantics of the C cast performed by
`astype(np.int16)` on an in-range float. -/
def ratTrunc (q : ℚ) : ℤ := if 0 ≤ q then ⌊q⌋ else ⌈q⌉

/-- The spec's exact scaling law for one sample, stated for comparison
with the code: the spec says playback samples "equal engine output
scaled by volume/100 and clamped", i.e. the exact rational product,
clipped and truncated.  This is the claim-side definition only; the
source's arithmetic is `scaleSampleF32` below. -/
def scaleSampleSpec (vol : ℚ) (s : ℤ) : ℤ := ratTrunc (clipQ ((s : ℚ) * vol))

/-- Decide `a/b < 2^e` for positive integers `a`, `b` and any integer
exponent `e`, by cross-multiplication (exact, no rounding). -/
def qlt2 (a b e : ℤ) : Bool :=
  if 0 ≤ e then a < b * 2 ^ e.toNat else a * 2 ^ (-e).toNat < b

/-- Lower the candidate exponent while `a/b < 2^e` (fuel-bounded). -/
def fl2Down : ℕ → ℤ → ℤ → ℤ → ℤ
  | 0, _, _, e => e
  | fuel + 1, a, b, e => if qlt2 a b e then fl2Down fuel a b (e - 1) else e

/-- Raise the candidate exponent while `2^(e+1) ≤ a/b` (fuel-bounded). -/
def fl2Up : ℕ → ℤ → ℤ → ℤ → ℤ
  | 0, _, _, e => e
  | fuel + 1, a, b, e => if qlt2 a b (e + 1) then e else fl2Up fuel a b (e + 1)

/-- `⌊log2 (a/b)⌋` for positive integers `a`, `b`, by bounded search;
the 64 steps of fuel cover every magnitude in `[2^-64, 2^64]`, far
beyond the volume path's values (nonzero magnitudes lie in
`[0.003, 2^16)`, intermediate integers below `2^40`). -/
def floorLog2 (a b : ℤ) : ℤ := fl2Up 64 a b (fl2Down 64 a b 0)

/-- Round the rational `a/b` (with `b > 0`) to the nearest integer,
ties to even — IEEE 754's default rounding applied to a scaled
significand.  `/` and `%` are Euclidean, so `q` is the floor and
`r/b ∈ [0, 1)` the fractional part, making the rule correct for
negative `a` as well. -/
def rneDiv (a b : ℤ) : ℤ :=
  let q := a / b
  let r := a % b
  if 2 * r < b then q
  else if b < 2 * r then q + 1
  else if q % 2 = 0 then q else q + 1

/-- The IEEE binary32 rounding of the positive rational `a/b` as a
dyadic pair `(m, e)` with value `m·2^e`: the exponent is chosen so the
significand `(a/b)·2^(-e)` lies in `[2^23, 2^24)`, and that significand
is rounded to the nearest integer, ties to even.  (Normalized range
only — subnormals and overflow cannot arise in the volume path.) -/
def fl32PosParts (a b : ℤ) : ℤ × ℤ :=
  let e := floorLog2 a b - 23
  let m := if 0 ≤ e then rneDiv a (b * 2 ^ e.toNat) else rneDiv (a * 2 ^ (-e).toNat) b
  (m, e)

/-- The IEEE binary32 rounding of `a/b` (with `b > 0`) as a signed
dyadic pair; round-to-nearest-even is symmetric, so the sign factors
out of the rounding of the magnitude. -/
def fl32Parts (a b : ℤ) : ℤ × ℤ :=
  if a = 0 then (0, 0)
  else if 0 < a then fl32PosParts a b
  else ((fl32PosParts (-a) b).1 * -1, (fl32PosParts (-a) b).2)

/-- One sample of the playback volume path of `stream_audio`, embedding
the source's float32 arithmetic bit-exactly as exact dyadic
computation: `v32` is the float32 volume factor (the Python double
`float(volume)/100.0` cast to float32 by NumPy — for integer volumes
0–100 the intermediate double rounding never disturbs the float32
result, as the nearest float32 tie points lie farther from `volume/100`
than double precision resolves); the int16 sample is exact in float32,
so `samples *= vol` produces the float32 rounding `p32` of the exact
product `s·v32`; `np.clip(…, -32768.0, 32767.0)` then `astype(np.int16)`
truncate the clipped value toward zero — at these integer bounds,
clipping then truncating equals truncating then clamping, which is how
the last step is written. -/
def scaleSampleF32 (volume : ℕ) (s : ℤ) : ℤ :=
  let v32 := fl32Parts (volume : ℤ) 100
  let M := s * v32.1
  let p32 := if 0 ≤ v32.2 then fl32Parts (M * 2 ^ v32.2.toNat) 1
             else fl32Parts M (2 ^ (-v32.2).toNat)
  let t := if 0 ≤ p32.2 then p32.1 * 2 ^ p32.2.toNat
           else p32.1.tdiv (2 ^ (-p32.2).toNat)
  if t < -32768 then -32768 else if 32767 < t then 32767 else t

/-- The playback bytes produced by `stream_audio` from an aligned chunk,
for an integer volume percentage; mirrors the three branches of the
source: `vol <= 0.0` emits equal-length silence, `vol < 0.999` scales
sample-wise through the float32 pipeline, otherwise the bytes pass
through unchanged.  (For integer volumes the double-precision branch
conditions of the source coincide with these exact rational ones.  The
source's `except` fallback to unscaled bytes around the NumPy block is
unreachable for well-formed buffers and is not modelled.) -/
def playDataF32 (volume : ℕ) (c : List ℕ) : List ℕ :=
  let vol : ℚ := (volume : ℚ) / 100
  if vol ≤ 0 then List.replicate c.length 0
  else if vol < 999/1000 then
    samplesToBytes ((bytesToSamples c).map (scaleSampleF32 volume))
  else c

/-- Status of the recording encoder process as observed by one cycle of
`stream_audio`: no process at all, alive and accepting writes, already
exited (`poll() is not None`), or raising on write (broken pipe). -/
inductive EncStatus
  | absent
  | alive
  | exited
  | writeFails
deriving DecidableEq

/-- Status of the playback sink (sox `play`) stdin for one cycle. -/
inductive SinkStatus
  | ok
  | broken
deriving DecidableEq

/-- The observable outcome of one read cycle of `stream_audio`: the bytes
written to the playback sink, to the encoder, and appended to the
visualization buffer, plus the recording flag after the cycle, whether a
UI notification was scheduled, and whether the loop continues. -/
structure CycleResult where
  playWrite : List ℕ
  encWrite : Option (List ℕ)
  vizAppend : Option (List ℕ)
  recordingAfter : Bool
  uiNotified : Bool
  loopContinues : Bool
deriving DecidableEq

/-- One iteration of the `stream_audio` loop body after a successful pipe
read returning `chunk`, translated statement by statement: align to
frames (skipping the cycle if nothing remains), compute the
volume-scaled playback bytes, write them to the playback sink (a broken
sink ends the loop), then — if recording and an encoder process exists —
either detect the dead encoder (or a failing write) and flip recording
off with a UI notification, or write the UNSCALED bytes to it; finally
append the unscaled bytes to the visualization buffer. -/
def stream_audio_cycle (volume : ℕ) (recording spectrumRunning : Bool)
    (enc : EncStatus) (play : SinkStatus) (chunk : List ℕ) : CycleResult :=
  let aligned := alignChunk chunk
  if aligned.isEmpty then
    { playWrite := [], encWrite := none, vizAppend := none,
      recordingAfter := recording, uiNotified := false, loopContinues := true }
  else
    match play with
    | .broken =>
        { playWrite := [], encWrite := none, vizAppend := none,
          recordingAfter := recording, uiNotified := false, loopContinues := false }
    | .ok =>
        let encPart : Option (List ℕ) × Bool × Bool :=
          if recording then
            match enc with
            | .absent => (none, recording, false)
            | .exited => (none, false, true)
            | .writeFails => (none, false, true)
            | .alive => (some aligned, true, false)
          else (none, recording, false)
        { playWrite := playDataF32 volume aligned
          encWrite := encPart.1
          vizAppend := if spectrumRunning then some aligned else none
          recordingAfter := encPart.2.1
          uiNotified := encPart.2.2
          loopContinues := true }

/-- Running the `stream_audio` loop over a sequence of read chunks,
threading the recording flag and stopping when a cycle breaks out of the
loop.  There is no byte-level state carried between cycles: each cycle
sees exactly the chunk of its own read. -/
def stream_audio_run (volume : ℕ) (spectrumRunning : Bool)
    (enc : EncStatus) (play : SinkStatus) : Bool → List (List ℕ) → List CycleResult
  | _, [] => []
  | recording, chunk :: rest =>
    let r := stream_audio_cycle volume recording spectrumRunning enc play chunk
    r :: (if r.loopContinues then stream_audio_run volume spectrumRunning enc play r.recordingAfter rest
          else [])

/-- Errors that `_start_gnuradio_rx` can raise during its configuration
phase, before any GNU Radio block is constructed: the Python
`ZeroDivisionError` of `demod_rate // audio_rate` and the `RuntimeError`
(the spec's `ConfigError`) raised when the demodulated rate is not a
multiple of the output audio rate. -/
inductive StartError
  | zeroAudioRate
  | configError (msg : String)
deriving DecidableEq

/-- The rate configuration an engine is constructed with when
`_start_gnuradio_rx` passes its checks. -/
structure GrEngineRates where
  demodRate : ℕ
  audioRate : ℕ
  audioDecim : ℕ
deriving DecidableEq

/-- The rate-configuration phase of `_start_gnuradio_rx`:
`audio_decim = demod_rate // audio_rate` followed by
`if demod_rate % audio_rate != 0: raise RuntimeError(...)`.  Both run
before `gr.top_block()` / `osmosdr.source` / `wfm_rcv_pll` exist, so an
error here yields no engine value at all. -/
def start_gnuradio_rx_rates (demod_rate audio_rate : ℕ) : Except StartError GrEngineRates :=
  if audio_rate = 0 then .error .zeroAudioRate
  else
    let audio_decim := demod_rate / audio_rate
    if demod_rate % audio_rate ≠ 0 then
      .error (.configError "demod_rate must be a multiple of audio_rate")
    else
      .ok ⟨demod_rate, audio_rate, audio_decim⟩

/-- The fixed input rate of the RDS metadata decoder (`RDS_SAMPLE_RATE`). -/
def RDS_SAMPLE_RATE : ℕ := 171000

/-- The interpolation/decimation pair of the metadata tap's rational
resampler, from `_start_gnuradio_rx`:
`g = gcd(RDS_SAMPLE_RATE, demod_rate) if demod_rate > 0 else 1`,
`interp = RDS_SAMPLE_RATE // g`, `decim = demod_rate // g if g else demod_rate`,
with the degenerate fallback `interp, decim = RDS_SAMPLE_RATE, max(1, demod_rate)`
when either comes out nonpositive.  No rate combination is rejected. -/
def rdsResamplerParams (demod_rate : ℕ) : ℕ × ℕ :=
  let g := if demod_rate > 0 then Nat.gcd RDS_SAMPLE_RATE demod_rate else 1
  let interp := RDS_SAMPLE_RATE / g
  let decim := if g ≠ 0 then demod_rate / g else demod_rate
  if interp = 0 ∨ decim = 0 then (RDS_SAMPLE_RATE, max 1 demod_rate) else (interp, decim)

/-- The metadata-tap setup of `_start_gnuradio_rx`: the rational
resampler is built from `rdsResamplerParams` and the surrounding
`try/except` falls back silently on failure — there is no error path
that aborts the session start for any demodulated rate. -/
def rdsTapSetup (demod_rate : ℕ) : Except StartError (ℕ × ℕ) :=
  .ok (rdsResamplerParams demod_rate)

/-- Which thread executes an event of the station-switch sequence. -/
inductive SwThread
  | uiThread
  | workerThread
deriving DecidableEq

/-- The events of `_switch_station_async` / `_start_station_playback`,
in the order the source executes them. -/
inductive SwitchEv
  | stopPlaybackQuiet
  | captureStopEvent
  | spawnWaiter
  | waitStopEvent (timeoutSec : ℚ)
  | sleepSettle
  | scheduleStartOnUi
  | startEngine
  | spawnPlaySink
  | updateFreqDisplay
  | setPlayingFlags
  | startStreamThread
deriving DecidableEq

/-- The sequenced events of a station switch while playing
(`_switch_station_async` followed by the scheduled
`_start_station_playback`), each tagged with the thread that runs it:
stop the current session quietly, capture its stop-completion event,
spawn the waiter; the waiter waits on the event with a 3-second timeout
and settles briefly, then schedules the start back onto the UI thread;
the start constructs the engine, spawns the playback sink, and only then
updates the frequency entry, sets the playing flags and starts the
streaming thread. -/
def switchStationTrace : List (SwThread × SwitchEv) :=
  [(.uiThread, .stopPlaybackQuiet),
   (.uiThread, .captureStopEvent),
   (.uiThread, .spawnWaiter),
   (.workerThread, .waitStopEvent 3),
   (.workerThread, .sleepSettle),
   (.workerThread, .scheduleStartOnUi),
   (.uiThread, .startEngine),
   (.uiThread, .spawnPlaySink),
   (.uiThread, .updateFreqDisplay),
   (.uiThread, .setPlayingFlags),
   (.uiThread, .startStreamThread)]

/-- The resource events of `_stop_gnuradio_rx` (with a live flowgraph),
in source order. -/
inductive StopEv
  | closePrimaryReadFile
  | closePrimaryReadFd
  | terminateDecoder
  | engineStop
  | engineWaitDone
  | closePrimaryWriteFd
  | closeMetaWriteFd
  | closeMetaReadFile
  | signalStopEvent
deriving DecidableEq

/-- The teardown order of `_stop_gnuradio_rx`: the primary pipe's read
end is closed immediately and the redsea decoder terminated; the
flowgraph is then stopped and awaited; only after `tb.wait()` returns
are the write ends of both pipes closed, then the metadata pipe's read
end, and finally the stop-completion event is signalled.  (The source
explicitly defers closing the metadata read end so the engine's
file-descriptor sink cannot hit EPIPE and abort.) -/
def stopGnuradioTrace : List StopEv :=
  [.closePrimaryReadFile,
   .closePrimaryReadFd,
   .terminateDecoder,
   .engineStop,
   .engineWaitDone,
   .closePrimaryWriteFd,
   .closeMetaWriteFd,
   .closeMetaReadFile,
   .signalStopEvent]

/-- The respawn-throttle state of the RDS feeder loop
(`_start_rds_feeder_thread`): the timestamp of the last decoder spawn
attempt (`last_restart_ts`, initially 0.0). -/
structure FeederState where
  lastRestartTs : ℚ
deriving DecidableEq

/-- One iteration of the feeder loop's decoder-management step: when
forwarding is enabled but the decoder process is missing, exited or has
no stdin, spawn a replacement only if at least one second has elapsed
since the previous spawn attempt, recording the new timestamp.  Returns
the new state and whether a spawn was attempted. -/
def feederStep (forward procAlive : Bool) (now : ℚ) (st : FeederState) :
    FeederState × Bool :=
  if ¬ forward ∨ ¬ procAlive then
    if forward ∧ 1 ≤ now - st.lastRestartTs then ({ lastRestartTs := now }, true)
    else (st, false)
  else (st, false)

/-- The spawn-attempt times produced by running the feeder loop over a
sequence of iterations, each iteration observing the forwarding flag,
the decoder liveness and the current clock. -/
def feederSpawnTimes (st : FeederState) : List (Bool × Bool × ℚ) → List ℚ
  | [] => []
  | (f, alive, now) :: rest =>
    let step := feederStep f alive now st
    (if step.2 then [now] else []) ++ feederSpawnTimes step.1 rest

/-- The flag-and-handle state of the application that the stop routines
read and write; process/engine handles are abstracted to existence
flags. -/
structure AppState where
  playing : Bool
  spectrumRunning : Bool
  rdsUpdating : Bool
  recording : Bool
  playProc : Bool
  grTb : Bool
  currentStation : Bool
  recordProc : Bool
  recordSizeTimer : Bool
  recordFilename : Bool
  audioBuffer : List (List ℕ)
deriving DecidableEq

/-- The externally observable teardown actions the stop routines
perform. -/
inductive StopAct
  | logStopped
  | clearStatusLabel
  | clearAudioBuffer
  | terminatePlaySink
  | stopEngineAsync
  | clearPlots
  | updateButtons
  | logRecordingStopped
  | cancelSizeTimer
  | finalizeEncoderAsync
  | updateRecordButtons
deriving DecidableEq

/-- `stop_recording(quiet)`: returns immediately when not recording;
otherwise flips the recording flag first, cancels the size timer,
re-enables RDS updates if still playing, hands the encoder to an
asynchronous finalizer and clears the handle and filename. -/
def stop_recording (quiet : Bool) (s : AppState) : AppState × List StopAct :=
  if ¬ s.recording then (s, [])
  else
    let s1 : AppState :=
      { s with
        recording := false
        recordSizeTimer := false
        rdsUpdating := if s.playing then true else s.rdsUpdating
        recordProc := false
        recordFilename := false }
    let acts :=
      (if s.recordSizeTimer then [StopAct.cancelSizeTimer] else [])
      ++ (if ¬ quiet then [StopAct.logRecordingStopped] else [])
      ++ (if s.recordProc then [StopAct.finalizeEncoderAsync] else [])
      ++ (if ¬ quiet then [StopAct.updateRecordButtons] else [])
    (s1, acts)

/-- `stop_playback(quiet)`: returns immediately when not playing;
otherwise flips the worker-facing flags first, clears the audio buffer,
terminates the playback sink, stops the engine asynchronously, clears
the current station, and finally stops an active recording through
`stop_recording`. -/
def stop_playback (quiet : Bool) (s : AppState) : AppState × List StopAct :=
  if ¬ s.playing then (s, [])
  else
    let s1 : AppState :=
      { s with
        playing := false
        spectrumRunning := false
        rdsUpdating := false
        audioBuffer := [] }
    let acts1 :=
      (if ¬ quiet then [StopAct.logStopped, StopAct.clearStatusLabel] else [])
      ++ [StopAct.clearAudioBuffer]
    let s2 := if s1.playProc then { s1 with playProc := false } else s1
    let acts2 := if s1.playProc then [StopAct.terminatePlaySink] else []
    let s3 : AppState := { s2 with grTb := false, currentStation := false }
    let acts3 :=
      [StopAct.stopEngineAsync]
      ++ (if ¬ quiet then [StopAct.clearPlots, StopAct.updateButtons] else [])
    let tail := if s3.recording then stop_recording quiet s3 else (s3, [])
    (tail.1, acts1 ++ acts2 ++ acts3 ++ tail.2)

/-- A dynamically typed Python value, covering every field an
`FMStation` or its serialized dict can hold. -/
inductive PyVal
  | pyNone
  | pyStr (s : String)
  | pyInt (n : ℤ)
  | pyFloat (q : ℚ)
  | pyBool (b : Bool)
  | pyList (l : List PyVal)
  | pyDict (l : List (String × PyVal))

/-- A station record (`FMStation.__init__` defaults), fields dynamically
typed as in the source. -/
structure FMStation where
  freq : PyVal
  ps : PyVal := .pyNone
  radiotext : PyVal := .pyNone
  rtplus : PyVal := .pyNone
  pi : PyVal := .pyNone
  prog_type : PyVal := .pyNone
  alt_freqs : PyVal := .pyList []
  stereo : PyVal := .pyBool false
  tp : PyVal := .pyBool false
  ta : PyVal := .pyBool false
  last_seen : PyVal := .pyNone
  rds_count : PyVal := .pyInt 0

/-- `d[key]` lookup on a Python dict (first matching key). -/
def dictFind : List (String × PyVal) → String → Option PyVal
  | [], _ => none
  | (k, v) :: rest, key => if k = key then some v else dictFind rest key

/-- `d.get(key, default)`: the stored value (even `None`) when the key is
present, the default otherwise. -/
def dictGet (d : List (String × PyVal)) (key : String) (default : PyVal) : PyVal :=
  (dictFind d key).getD default

/-- `FMStation.to_dict`. -/
def FMStation.to_dict (st : FMStation) : List (String × PyVal) :=
  [("freq", st.freq), ("ps", st.ps), ("radiotext", st.radiotext),
   ("rtplus", st.rtplus), ("pi", st.pi), ("prog_type", st.prog_type),
   ("alt_freqs", st.alt_freqs), ("stereo", st.stereo), ("tp", st.tp),
   ("ta", st.ta), ("last_seen", st.last_seen), ("rds_count", st.rds_count)]

/-- `FMStation.from_dict`: `data['freq']` is a mandatory lookup (a
missing key raises, modelled as `none`), every other field is read with
`data.get` and the constructor's default. -/
def FMStation.from_dict (d : List (String × PyVal)) : Option FMStation :=
  (dictFind d "freq").map fun f =>
    { freq := f
      ps := dictGet d "ps" .pyNone
      radiotext := dictGet d "radiotext" .pyNone
      rtplus := dictGet d "rtplus" .pyNone
      pi := dictGet d "pi" .pyNone
      prog_type := dictGet d "prog_type" .pyNone
      alt_freqs := dictGet d "alt_freqs" (.pyList [])
      stereo := dictGet d "stereo" (.pyBool false)
      tp := dictGet d "tp" (.pyBool false)
      ta := dictGet d "ta" (.pyBool false)
      last_seen := dictGet d "last_seen" .pyNone
      rds_count := dictGet d "rds_count" (.pyInt 0) }

/-- C10: station serialization round-trips losslessly —
`FMStation.from_dict (FMStation.to_dict s)` restores every one of the
twelve fields (freq, ps, radiotext, rtplus, pi, prog_type, alt_freqs,
stereo, tp, ta, last_seen, rds_count) exactly. -/
theorem c10_station_roundtrip (st : FMStation) :
    FMStation.from_dict st.to_dict = some st :=
  rfl

/-- C3: the configuration phase of `_start_gnuradio_rx` succeeds exactly
when the demodulated rate is an integer multiple of the audio rate —
otherwise it raises before any engine value exists — and a successful
configuration is never clamped: the decimation reproduces the demod rate
exactly. -/
theorem c3_rate_gate (d a : ℕ) (ha : 0 < a) :
    ((start_gnuradio_rx_rates d a).isOk ↔ d % a = 0) ∧
    (d % a ≠ 0 →
      start_gnuradio_rx_rates d a =
        .error (.configError "demod_rate must be a multiple of audio_rate")) ∧
    (∀ e, start_gnuradio_rx_rates d a = .ok e → e.audioDecim * a = d) := by
  have ha' : a ≠ 0 := Nat.pos_iff_ne_zero.mp ha
  refine ⟨?_, ?_, ?_⟩
  · unfold start_gnuradio_rx_rates
    by_cases h : d % a = 0 <;> simp [ha', h, Except.isOk, Except.toBool]
  · intro h
    unfold start_gnuradio_rx_rates
    simp [ha', h]
  · intro e he
    unfold start_gnuradio_rx_rates at he
    by_cases h : d % a = 0
    · simp [ha', h] at he
      subst he
      simpa using (Nat.div_mul_cancel (Nat.dvd_of_mod_eq_zero h))
    · simp [ha', h] at he

/-- Witness for C3 at the spec's reference scenarios: the rate pair
240000/48000 is accepted and 240001/48000 is rejected with the
configuration error, before any engine exists. -/
theorem c3_rate_gate_witness :
    (start_gnuradio_rx_rates 240000 48000).isOk = true ∧
    start_gnuradio_rx_rates 240001 48000 =
      .error (.configError "demod_rate must be a multiple of audio_rate") := by
  have h1 := c3_rate_gate 240000 48000 (by decide)
  have h2 := c3_rate_gate 240001 48000 (by decide)
  exact ⟨h1.1.mpr (by decide), h2.2.1 (by decide)⟩

/-- C4: during a station switch while playing, the old session is
stopped first, the new start is deferred behind a wait on the old
session's stop-completion event with a bounded (3 s) timeout, that wait
runs on a background worker thread (never the UI thread), and the
frequency display is updated only after the new engine and the playback
sink have actually been started. -/
theorem c4_switch_ordering :
    switchStationTrace.indexOf (.uiThread, .stopPlaybackQuiet) <
      switchStationTrace.indexOf (.workerThread, .waitStopEvent 3) ∧
    switchStationTrace.indexOf (.workerThread, .waitStopEvent 3) <
      switchStationTrace.indexOf (.uiThread, .startEngine) ∧
    (.workerThread, .waitStopEvent 3) ∈ switchStationTrace ∧
    (∀ q : ℚ, (.uiThread, .waitStopEvent q) ∉ switchStationTrace) ∧
    switchStationTrace.indexOf (.uiThread, .startEngine) <
      switchStationTrace.indexOf (.uiThread, .updateFreqDisplay) ∧
    switchStationTrace.indexOf (.uiThread, .spawnPlaySink) <
      switchStationTrace.indexOf (.uiThread, .updateFreqDisplay) := by
  refine ⟨by decide, by decide, by decide, ?_, by decide, by decide⟩
  intro q hq
  simp [switchStationTrace] at hq

/-- C5 counterexample: the claim says the read ends of BOTH pipes are
closed immediately (before the engine is stopped), but in
`_stop_gnuradio_rx` the metadata tap's read end is closed only after
`tb.wait()` has confirmed the engine stopped — it is not closed before
the engine stop begins. -/
theorem c5_counterexample :
    ¬ (stopGnuradioTrace.indexOf .closeMetaReadFile <
        stopGnuradioTrace.indexOf .engineStop) ∧
    stopGnuradioTrace.indexOf .engineWaitDone <
      stopGnuradioTrace.indexOf .closeMetaReadFile := by
  decide

/-- C5 as amended: during `_stop_gnuradio_rx`, the write ends of both
pipes are closed only after the engine confirms (via `tb.wait()`) that
it stopped producing; the PRIMARY pipe's read end is closed immediately
(before the engine stop begins) to unblock the stream reader, while the
metadata tap's read end is deliberately closed only after the engine has
stopped, so the engine's sink never faults on a closed descriptor. -/
theorem c5_close_ordering :
    stopGnuradioTrace.indexOf .closePrimaryReadFile <
      stopGnuradioTrace.indexOf .engineStop ∧
    stopGnuradioTrace.indexOf .closePrimaryReadFd <
      stopGnuradioTrace.indexOf .engineStop ∧
    stopGnuradioTrace.indexOf .engineStop <
      stopGnuradioTrace.indexOf .engineWaitDone ∧
    stopGnuradioTrace.indexOf .engineWaitDone <
      stopGnuradioTrace.indexOf .closePrimaryWriteFd ∧
    stopGnuradioTrace.indexOf .engineWaitDone <
      stopGnuradioTrace.indexOf .closeMetaWriteFd ∧
    stopGnuradioTrace.indexOf .engineWaitDone <
      stopGnuradioTrace.indexOf .closeMetaReadFile := by
  decide

/-- C8 counterexample: with the application's default demodulated rate
of 240000 Hz, 171000 is NOT reachable by an integer resampling ratio
(neither rate divides the other), yet the metadata tap setup succeeds
with the gcd-reduced rational resampler (57, 80) — no `ConfigError` is
raised and session start is not rejected. -/
theorem c8_counterexample :
    rdsTapSetup 240000 = .ok (57, 80) ∧
    240000 % RDS_SAMPLE_RATE ≠ 0 ∧ RDS_SAMPLE_RATE % 240000 ≠ 0 := by
  refine ⟨rfl, by decide, by decide⟩

/-- C8 as amended: the metadata tap never rejects a rate combination;
for every positive demodulated rate the tap is configured with the
gcd-reduced rational resampler, whose positive interpolation and
decimation realize the ratio 171000/demod exactly, and a tap failure
falls back silently to audio-only rather than raising a configuration
error. -/
theorem c8_tap_rational_resampler (d : ℕ) (hd : 0 < d) :
    ∃ interp decim, rdsTapSetup d = .ok (interp, decim) ∧
      0 < interp ∧ 0 < decim ∧ interp * d = decim * RDS_SAMPLE_RATE := by
  have hR : (0 : ℕ) < RDS_SAMPLE_RATE := by decide
  have hg : 0 < Nat.gcd RDS_SAMPLE_RATE d := Nat.gcd_pos_of_pos_left _ hR
  obtain ⟨a, ha⟩ := Nat.gcd_dvd_left RDS_SAMPLE_RATE d
  obtain ⟨b, hb⟩ := Nat.gcd_dvd_right RDS_SAMPLE_RATE d
  set g := Nat.gcd RDS_SAMPLE_RATE d with hgdef
  have hag : RDS_SAMPLE_RATE / g = a := by
    rw [ha]; exact Nat.mul_div_cancel_left a hg
  have hbg : d / g = b := by
    rw [hb]; exact Nat.mul_div_cancel_left b hg
  have hapos : 0 < a := by
    rcases Nat.eq_zero_or_pos a with h0 | h; · rw [h0, Nat.mul_zero] at ha; exact absurd ha.symm (by decide)
    · exact h
  have hbpos : 0 < b := by
    rcases Nat.eq_zero_or_pos b with h0 | h
    · rw [h0, Nat.mul_zero] at hb; omega
    · exact h
  refine ⟨a, b, ?_, hapos, hbpos, ?_⟩
  · unfold rdsTapSetup rdsResamplerParams
    have hd' : d > 0 := hd
    simp only [hd', if_true, ← hgdef, hag, hbg]
    have hgz : ¬ g = 0 := by omega
    have : ¬ (a = 0 ∨ b = 0) := by omega
    simp [hgz, this]
  · rw [ha, hb]; ring

/-- Witness for C8's amended theorem at the default demodulated rate
240000 Hz: the tap resampler exists with exact ratio. -/
theorem c8_tap_rational_resampler_witness :
    ∃ interp decim, rdsTapSetup 240000 = .ok (interp, decim) ∧
      0 < interp ∧ 0 < decim ∧ interp * 240000 = decim * RDS_SAMPLE_RATE :=
  c8_tap_rational_resampler 240000 (by decide)

/-- `stop_recording` never touches the playing flag. -/
theorem stop_recording_playing (quiet : Bool) (s : AppState) :
    (stop_recording quiet s).1.playing = s.playing := by
  simp only [stop_recording]
  split_ifs <;> rfl

/-- After `stop_recording` the recording flag is false. -/
theorem stop_recording_not_recording (quiet : Bool) (s : AppState) :
    (stop_recording quiet s).1.recording = false := by
  simp only [stop_recording]
  split_ifs <;> simp_all

/-- After `stop_playback` the playing flag is false. -/
theorem stop_playback_not_playing (quiet : Bool) (s : AppState) :
    (stop_playback quiet s).1.playing = false := by
  simp only [stop_playback, stop_recording]
  split_ifs <;> simp_all

/-- C9: both stop operations are idempotent — a second `stop_playback`
(respectively `stop_recording`) on the state left by the first returns
that state unchanged and performs no teardown action at all, because the
first call already cleared the guarding flag. -/
theorem c9_stop_idempotent (quiet : Bool) (s : AppState) :
    stop_playback quiet (stop_playback quiet s).1 =
      ((stop_playback quiet s).1, []) ∧
    stop_recording quiet (stop_recording quiet s).1 =
      ((stop_recording quiet s).1, []) := by
  constructor
  · have hp := stop_playback_not_playing quiet s
    generalize hX : (stop_playback quiet s).1 = X at hp ⊢
    simp only [stop_playback]
    simp [hp]
  · have hr := stop_recording_not_recording quiet s
    generalize hX : (stop_recording quiet s).1 = X at hr ⊢
    simp only [stop_recording]
    simp [hr]

/-- Every spawn time produced by the feeder loop is at least one second
later than the throttle timestamp it started from. -/
theorem feederSpawnTimes_ge (ticks : List (Bool × Bool × ℚ)) :
    ∀ (st : FeederState), ∀ s ∈ feederSpawnTimes st ticks,
      st.lastRestartTs + 1 ≤ s := by
  induction ticks with
  | nil => intro st s hs; simp [feederSpawnTimes] at hs
  | cons tick rest ih =>
    intro st s hs
    obtain ⟨f, alive, now⟩ := tick
    unfold feederSpawnTimes at hs
    simp only [] at hs
    by_cases hsp : (feederStep f alive now st).2
    · rw [if_pos hsp] at hs
      have hguard : st.lastRestartTs + 1 ≤ now := by
        unfold feederStep at hsp
        split at hsp
        · split at hsp
          · rename_i hc; linarith [hc.2]
          · simp at hsp
        · simp at hsp
      have hstep : (feederStep f alive now st).1 = { lastRestartTs := now } ∨
          (feederStep f alive now st).1 = st := by
        unfold feederStep
        split
        · split
          · exact Or.inl rfl
          · exact Or.inr rfl
        · exact Or.inr rfl
      rcases List.mem_append.mp hs with h | h
      · rcases List.mem_singleton.mp h with rfl
        exact hguard
      · rcases hstep with he | he
        · have := ih _ s (he ▸ h)
          simp at this
          linarith
        · have := ih _ s (he ▸ h)
          linarith [this]
    · rw [if_neg (by simpa using hsp)] at hs
      simp at hs
      have hstep : (feederStep f alive now st).1 = st := by
        unfold feederStep
        split
        · split
          · rename_i hc
            exfalso
            apply hsp
            unfold feederStep
            rw [if_pos (by assumption), if_pos hc]
          · rfl
        · rfl
      exact ih _ s (hstep ▸ hs)

/-- Consecutive spawn times of the feeder loop are at least one second
apart. -/
theorem feederSpawnTimes_chain (ticks : List (Bool × Bool × ℚ)) :
    ∀ (st : FeederState),
      List.Chain' (fun a b => a + 1 ≤ b) (feederSpawnTimes st ticks) := by
  induction ticks with
  | nil => intro st; simp [feederSpawnTimes]
  | cons tick rest ih =>
    intro st
    obtain ⟨f, alive, now⟩ := tick
    unfold feederSpawnTimes
    simp only []
    by_cases hsp : (feederStep f alive now st).2
    · rw [if_pos hsp]
      simp only [List.singleton_append]
      rw [List.chain'_cons']
      refine ⟨?_, ih _⟩
      intro y hy
      have hmem : y ∈ feederSpawnTimes (feederStep f alive now st).1 rest :=
        List.mem_of_mem_head? hy
      have hstep : (feederStep f alive now st).1 = { lastRestartTs := now } := by
        unfold feederStep at hsp ⊢
        split at hsp
        · split at hsp
          · rw [if_pos (by assumption), if_pos (by assumption)]
          · simp at hsp
        · simp at hsp
      have := feederSpawnTimes_ge rest _ y (hstep ▸ hmem)
      simpa using this
    · rw [if_neg (by simpa using hsp)]
      simpa using ih _

/-- In a list whose consecutive elements are ≥ 1 apart, every later
element is at least 1 above the head. -/
theorem chain_one_le_of_mem {x : ℚ} {xs : List ℚ}
    (h : List.Chain' (fun a b => a + 1 ≤ b) (x :: xs)) :
    ∀ y ∈ xs, x + 1 ≤ y := by
  induction xs generalizing x with
  | nil => intro y hy; simp at hy
  | cons z zs ih =>
    intro y hy
    have hxz : x + 1 ≤ z := (List.chain'_cons.mp h).1
    rcases List.mem_cons.mp hy with rfl | hy'
    · exact hxz
    · have := ih (List.chain'_cons.mp h).2 y hy'
      linarith

/-- A list with gaps of at least one second has at most `n` elements in
any half-open window of length `n`. -/
theorem chain_window_count (l : List ℚ)
    (h : List.Chain' (fun a b => a + 1 ≤ b) l) :
    ∀ (t : ℚ) (n : ℕ),
      l.countP (fun s => decide (t ≤ s ∧ s < t + n)) ≤ n := by
  induction l with
  | nil => intro t n; simp
  | cons x xs ih =>
    intro t n
    have hall : ∀ y ∈ xs, x + 1 ≤ y := chain_one_le_of_mem h
    have hxs : List.Chain' (fun a b => a + 1 ≤ b) xs := h.tail
    rw [List.countP_cons]
    by_cases hx : t ≤ x ∧ x < t + n
    · have hn : 0 < n := by
        by_contra h0
        push_neg at h0
        interval_cases n
        have := hx.2
        simp at this
        linarith [hx.1]
      obtain ⟨m, rfl⟩ : ∃ m, n = m + 1 := ⟨n - 1, by omega⟩
      have hmono : xs.countP (fun s => decide (t ≤ s ∧ s < t + (m + 1 : ℕ))) ≤
          xs.countP (fun s => decide ((x + 1) ≤ s ∧ s < (x + 1) + m)) := by
        apply List.countP_mono_left
        intro y hy hp
        simp only [decide_eq_true_eq] at hp ⊢
        refine ⟨hall y hy, ?_⟩
        have h2 : y < t + (m + 1 : ℕ) := hp.2
        have hc : ((m + 1 : ℕ) : ℚ) = (m : ℚ) + 1 := by push_cast; ring
        rw [hc] at h2
        linarith [hx.1]
      have hfinal : xs.countP (fun s => decide (t ≤ s ∧ s < t + (m + 1 : ℕ))) ≤ m :=
        le_trans hmono (ih hxs (x + 1) m)
      rw [if_pos (by simpa using hx)]
      omega
    · simp only [decide_eq_true_eq]
      rw [if_neg hx]
      simpa using ih hxs t n

/-- C7: the feeder loop's decoder respawns are throttled — for every
possible sequence of iterations (any pattern of decoder exits, pipe
states and clock readings) consecutive spawn attempts are at least one
second apart, and consequently any half-open ten-second window contains
at most ten spawn attempts. -/
theorem c7_respawn_throttle (st : FeederState)
    (ticks : List (Bool × Bool × ℚ)) (t : ℚ) :
    List.Chain' (fun a b => a + 1 ≤ b) (feederSpawnTimes st ticks) ∧
    (feederSpawnTimes st ticks).countP
      (fun s => decide (t ≤ s ∧ s < t + (10 : ℕ))) ≤ 10 :=
  ⟨feederSpawnTimes_chain ticks st,
   chain_window_count _ (feederSpawnTimes_chain ticks st) t 10⟩

/-- The aligned chunk keeps exactly the length minus its remainder
modulo the frame size. -/
theorem alignChunk_length (c : List ℕ) :
    (alignChunk c).length = c.length - c.length % 4 := by
  simp [alignChunk, frameSize]

/-- The aligned chunk's length is a multiple of the 4-byte frame. -/
theorem alignChunk_length_mod (c : List ℕ) : (alignChunk c).length % 4 = 0 := by
  rw [alignChunk_length]
  omega

/-- Decoding yields one sample per two bytes. -/
theorem bytesToSamples_length : ∀ c : List ℕ, (bytesToSamples c).length = c.length / 2
  | [] => rfl
  | [_] => by simp [bytesToSamples]
  | _ :: _ :: rest => by
    simp only [bytesToSamples, List.length_cons, bytesToSamples_length rest]
    omega

/-- Encoding yields two bytes per sample. -/
theorem samplesToBytes_length : ∀ l : List ℤ, (samplesToBytes l).length = 2 * l.length
  | [] => rfl
  | s :: rest => by
    simp only [samplesToBytes, List.map_cons, List.flatten_cons, List.length_append,
      List.length_cons]
    have := samplesToBytes_length rest
    simp only [samplesToBytes] at this
    simp [sampleToBytes, this]
    ring

/-- Every decoded sample lies in the signed 16-bit range. -/
theorem bytesToSamples_range : ∀ c : List ℕ, ∀ s ∈ bytesToSamples c,
    -32768 ≤ s ∧ s ≤ 32767
  | [] => by simp [bytesToSamples]
  | [_] => by simp [bytesToSamples]
  | b0 :: b1 :: rest => by
    intro s hs
    simp only [bytesToSamples] at hs
    rcases List.mem_cons.mp hs with rfl | hs'
    · unfold toSigned16
      split_ifs <;> omega
    · exact bytesToSamples_range rest s hs'

/-- Encoding one in-range sample and decoding it back (inside any byte
stream) restores the sample. -/
theorem sampleToBytes_roundtrip (s : ℤ) (h1 : -32768 ≤ s) (h2 : s ≤ 32767)
    (rest : List ℕ) :
    bytesToSamples (sampleToBytes s ++ rest) = s :: bytesToSamples rest := by
  show bytesToSamples
      ((s % 65536).toNat % 256 :: (s % 65536).toNat / 256 :: rest) = _
  simp only [bytesToSamples]
  congr 1
  unfold toSigned16
  split_ifs <;> omega

/-- Encoding a vector of in-range samples and decoding the byte string
back restores the vector. -/
theorem samplesToBytes_roundtrip : ∀ l : List ℤ,
    (∀ s ∈ l, -32768 ≤ s ∧ s ≤ 32767) →
    bytesToSamples (samplesToBytes l) = l
  | [], _ => rfl
  | s :: rest, h => by
    have hsr : samplesToBytes (s :: rest) = sampleToBytes s ++ samplesToBytes rest := by
      simp [samplesToBytes]
    rw [hsr, sampleToBytes_roundtrip s (h s (by simp)).1 (h s (by simp)).2,
      samplesToBytes_roundtrip rest (fun x hx => h x (by simp [hx]))]

/-- Decoding a run of zero bytes yields zero samples. -/
theorem bytesToSamples_replicate (k : ℕ) :
    bytesToSamples (List.replicate (2 * k) 0) = List.replicate k 0 := by
  induction k with
  | zero => rfl
  | succ n ih =>
    rw [show 2 * (n + 1) = 2 * n + 1 + 1 by ring, List.replicate_succ,
      List.replicate_succ]
    simp only [bytesToSamples]
    rw [ih, List.replicate_succ]
    congr 1

/-- The float32-scaled, clipped, truncated sample always lies in the
signed 16-bit range (a consequence of the clip alone). -/
theorem scaleSampleF32_range (volume : ℕ) (s : ℤ) :
    -32768 ≤ scaleSampleF32 volume s ∧ scaleSampleF32 volume s ≤ 32767 := by
  constructor <;>
    · unfold scaleSampleF32
      simp only []
      split_ifs <;> omega

/-- Volume 0 emits equal-length silence without touching the samples. -/
theorem playDataF32_zero (c : List ℕ) :
    playDataF32 0 c = List.replicate c.length 0 := by
  unfold playDataF32
  simp only []
  rw [if_pos (by norm_num)]

/-- Volume 100 passes the bytes through unchanged. -/
theorem playDataF32_hundred (c : List ℕ) : playDataF32 100 c = c := by
  unfold playDataF32
  simp only []
  rw [if_neg (by norm_num), if_neg (by norm_num)]

/-- The playback bytes have the same length as the (even-length) input
chunk, for every volume. -/
theorem playDataF32_length (v : ℕ) (c : List ℕ) (hc : c.length % 2 = 0) :
    (playDataF32 v c).length = c.length := by
  unfold playDataF32
  simp only []
  split_ifs
  · simp
  · rw [samplesToBytes_length, List.length_map, bytesToSamples_length]
    omega
  · rfl

/-- For the scaling volumes 1–99, the playback bytes decode to exactly
the engine samples passed through the float32 volume pipeline. -/
theorem playDataF32_samples_mid (v : ℕ) (hv1 : 1 ≤ v) (hv99 : v ≤ 99)
    (c : List ℕ) :
    bytesToSamples (playDataF32 v c) =
      (bytesToSamples c).map (scaleSampleF32 v) := by
  unfold playDataF32
  simp only []
  have hvq1 : (1 : ℚ) ≤ (v : ℚ) := by exact_mod_cast hv1
  have hvq99 : (v : ℚ) ≤ 99 := by exact_mod_cast hv99
  rw [if_neg (by intro h; nlinarith), if_pos (by nlinarith)]
  exact samplesToBytes_roundtrip _
    (fun s hs => by
      obtain ⟨s', _, rfl⟩ := List.mem_map.mp hs
      exact scaleSampleF32_range _ _)

/-- With a live playback sink, an alive encoder and recording on, one
read cycle writes the volume bytes to playback, the unscaled aligned
bytes to the encoder, and the unscaled aligned bytes to the
visualization buffer, continuing the loop. -/
theorem cycle_alive_ok (v : ℕ) (sp : Bool) (chunk : List ℕ)
    (hE : (alignChunk chunk).isEmpty = false) :
    stream_audio_cycle v true sp .alive .ok chunk =
      { playWrite := playDataF32 v (alignChunk chunk)
        encWrite := some (alignChunk chunk)
        vizAppend := if sp then some (alignChunk chunk) else none
        recordingAfter := true
        uiNotified := false
        loopContinues := true } := by
  unfold stream_audio_cycle
  rw [if_neg (by simp [hE])]
  rfl

/-- Every write a cycle performs is either empty or derived from the
aligned prefix of that cycle's own read: the playback write is the
volume image of the aligned chunk, and the encoder and visualization
writes are the aligned chunk itself. -/
theorem cycle_writes_aligned (v : ℕ) (rec sp : Bool) (enc : EncStatus)
    (play : SinkStatus) (chunk : List ℕ) :
    ((stream_audio_cycle v rec sp enc play chunk).playWrite = [] ∨
     (stream_audio_cycle v rec sp enc play chunk).playWrite =
       playDataF32 v (alignChunk chunk)) ∧
    ((stream_audio_cycle v rec sp enc play chunk).encWrite = none ∨
     (stream_audio_cycle v rec sp enc play chunk).encWrite =
       some (alignChunk chunk)) ∧
    ((stream_audio_cycle v rec sp enc play chunk).vizAppend = none ∨
     (stream_audio_cycle v rec sp enc play chunk).vizAppend =
       some (alignChunk chunk)) := by
  unfold stream_audio_cycle
  by_cases hE : (alignChunk chunk).isEmpty = true
  · rw [if_pos hE]
    simp
  · rw [if_neg hE]
    cases play
    · cases rec <;> cases enc <;> cases sp <;> simp
    · simp

/-- C1 counterexample: at the reachable input volume 53 (an integer
volume percentage the UI can set) and engine sample 30900 (bytes
`[180, 120]` little-endian, read twice in one aligned 4-byte chunk),
the program's float32 volume path writes the playback sample 16376,
whereas the exact value "scaled by volume/100 and clamped" is
`⌊30900 · 53/100⌋ = 16377` — the playback bytes do NOT equal the engine
bytes scaled exactly by volume/100, refuting the claim as stated. -/
theorem c1_counterexample :
    bytesToSamples (stream_audio_cycle 53 true true .alive .ok
        [180, 120, 180, 120]).playWrite = [16376, 16376] ∧
    (bytesToSamples (alignChunk [180, 120, 180, 120])).map
      (scaleSampleSpec ((53 : ℚ) / 100)) = [16377, 16377] ∧
    bytesToSamples (stream_audio_cycle 53 true true .alive .ok
        [180, 120, 180, 120]).playWrite ≠
      (bytesToSamples (alignChunk [180, 120, 180, 120])).map
        (scaleSampleSpec ((53 : ℚ) / 100)) := by
  have h1 : bytesToSamples (stream_audio_cycle 53 true true .alive .ok
      [180, 120, 180, 120]).playWrite = [16376, 16376] := by
    rw [cycle_alive_ok 53 true [180, 120, 180, 120] (by decide)]
    show bytesToSamples (playDataF32 53 (alignChunk [180, 120, 180, 120])) = _
    rw [playDataF32_samples_mid 53 (by norm_num) (by norm_num)]
    decide
  have h2 : (bytesToSamples (alignChunk [180, 120, 180, 120])).map
      (scaleSampleSpec ((53 : ℚ) / 100)) = [16377, 16377] := by
    rw [show bytesToSamples (alignChunk [180, 120, 180, 120]) = [30900, 30900]
      from by decide]
    simp only [List.map_cons, List.map_nil]
    rw [show scaleSampleSpec ((53 : ℚ) / 100) 30900 = 16377 from by
      unfold scaleSampleSpec clipQ ratTrunc
      norm_num]
  refine ⟨h1, h2, ?_⟩
  rw [h1, h2]
  decide

/-- C1 as amended: in one read cycle of `stream_audio` (recording
active, encoder alive, sink healthy), the encoder receives exactly the
frame-aligned bytes of the single read, bit-identical and independent
of the volume; the playback write always has the aligned chunk's
length; for the scaling volumes 1–99 the playback bytes decode to the
engine samples scaled by the float32 rounding of volume/100 with the
product rounded to float32, clipped to the signed 16-bit range and
truncated — the code's arithmetic, which can differ from exact scaling
by one least significant unit; volume 0 yields equal-length silence and
volume 100 passes the bytes through unchanged.  Both outputs are
computed from the one aligned chunk of the cycle's single read. -/
theorem c1_volume_fanout_f32 (v : ℕ) (sp : Bool) (chunk : List ℕ) :
    (stream_audio_cycle v true sp .alive .ok chunk).encWrite =
      (if (alignChunk chunk).isEmpty then none else some (alignChunk chunk)) ∧
    (stream_audio_cycle v true sp .alive .ok chunk).playWrite.length =
      (alignChunk chunk).length ∧
    (1 ≤ v → v ≤ 99 →
      bytesToSamples (stream_audio_cycle v true sp .alive .ok chunk).playWrite =
        (bytesToSamples (alignChunk chunk)).map (scaleSampleF32 v)) ∧
    (v = 0 → (stream_audio_cycle v true sp .alive .ok chunk).playWrite =
      List.replicate (alignChunk chunk).length 0) ∧
    (v = 100 → (stream_audio_cycle v true sp .alive .ok chunk).playWrite =
      alignChunk chunk) := by
  have h2 : (alignChunk chunk).length % 2 = 0 := by
    have := alignChunk_length_mod chunk
    omega
  by_cases hE : (alignChunk chunk).isEmpty
  · have hnil : alignChunk chunk = [] := by
      cases h : alignChunk chunk
      · rfl
      · rw [h] at hE; simp at hE
    unfold stream_audio_cycle
    rw [if_pos hE]
    refine ⟨by simp [hE], ?_, ?_, ?_, ?_⟩ <;> simp [hnil, bytesToSamples]
  · have hE' : (alignChunk chunk).isEmpty = false := by
      cases h : (alignChunk chunk).isEmpty
      · rfl
      · exact absurd h hE
    rw [cycle_alive_ok v sp chunk hE']
    refine ⟨by simp [hE'], ?_, ?_, ?_, ?_⟩
    · exact playDataF32_length v _ h2
    · intro hv1 hv99
      exact playDataF32_samples_mid v hv1 hv99 _
    · intro h0; subst h0; exact playDataF32_zero _
    · intro h100; subst h100; exact playDataF32_hundred _

/-- C2: every chunk forwarded to any sink in any run of the streaming
loop — playback write, encoder write, visualization append — has a
length that is a multiple of the 4-byte stereo frame, so no frame is
ever split across two sink writes; and the full byte stream delivered to
the encoder is exactly the concatenation of the per-read aligned
prefixes: a misaligned trailing partial frame is dropped within its own
read cycle and never carried into a later one. -/
theorem c2_frame_alignment (v : ℕ) (sp rec : Bool) (enc : EncStatus)
    (play : SinkStatus) (chunks : List (List ℕ)) :
    (∀ r ∈ stream_audio_run v sp enc play rec chunks,
        r.playWrite.length % 4 = 0 ∧
        (∀ w, r.encWrite = some w → w.length % 4 = 0) ∧
        (∀ w, r.vizAppend = some w → w.length % 4 = 0)) ∧
    ((stream_audio_run v sp .alive .ok true chunks).map
        (fun r => r.encWrite.getD [])).flatten =
      (chunks.map alignChunk).flatten := by
  constructor
  · induction chunks generalizing rec with
    | nil => intro r hr; simp [stream_audio_run] at hr
    | cons chunk rest ih =>
      intro r hr
      unfold stream_audio_run at hr
      simp only [] at hr
      have key : ∀ rc, (rc = stream_audio_cycle v rec sp enc play chunk) →
          rc.playWrite.length % 4 = 0 ∧
          (∀ w, rc.encWrite = some w → w.length % 4 = 0) ∧
          (∀ w, rc.vizAppend = some w → w.length % 4 = 0) := by
        intro rc hrc
        subst hrc
        obtain ⟨hp, he, hz⟩ := cycle_writes_aligned v rec sp enc play chunk
        have hlen2 : (alignChunk chunk).length % 2 = 0 := by
          have := alignChunk_length_mod chunk
          omega
        refine ⟨?_, ?_, ?_⟩
        · rcases hp with h | h <;> rw [h]
          · rfl
          · rw [playDataF32_length v _ hlen2]
            exact alignChunk_length_mod chunk
        · intro w hw
          rcases he with h | h <;> rw [h] at hw
          · exact absurd hw (by simp)
          · cases hw
            exact alignChunk_length_mod chunk
        · intro w hw
          rcases hz with h | h <;> rw [h] at hw
          · exact absurd hw (by simp)
          · cases hw
            exact alignChunk_length_mod chunk
      rcases List.mem_cons.mp hr with rfl | hr'
      · exact key _ rfl
      · by_cases hl : (stream_audio_cycle v rec sp enc play chunk).loopContinues
        · rw [if_pos hl] at hr'
          exact ih _ r hr'
        · rw [if_neg hl] at hr'
          simp at hr'
  · induction chunks with
    | nil => rfl
    | cons chunk rest ih =>
      unfold stream_audio_run
      simp only []
      by_cases hE : (alignChunk chunk).isEmpty
      · have hnil : alignChunk chunk = [] := by
          cases h : alignChunk chunk
          · rfl
          · rw [h] at hE; simp at hE
        have hcy : stream_audio_cycle v true sp .alive .ok chunk =
            { playWrite := [], encWrite := none, vizAppend := none,
              recordingAfter := true, uiNotified := false,
              loopContinues := true } := by
          unfold stream_audio_cycle
          rw [if_pos hE]
        rw [hcy]
        simp [hnil, ih]
      · have hE' : (alignChunk chunk).isEmpty = false := by
          cases h : (alignChunk chunk).isEmpty
          · rfl
          · exact absurd h hE
        rw [cycle_alive_ok v sp chunk hE']
        simp [ih]

/-- C6: when the encoder has exited or refuses the write while recording
is active, the cycle flips recording off, schedules a UI notification,
delivers nothing to the encoder — yet still writes the playback bytes
and continues the streaming loop: the failure is isolated to the
recording consumer and never ends the loop or the session. -/
theorem c6_encoder_failure_isolated (v : ℕ) (sp : Bool) (enc : EncStatus)
    (chunk : List ℕ)
    (hE : (alignChunk chunk).isEmpty = false)
    (henc : enc = .exited ∨ enc = .writeFails) :
    (stream_audio_cycle v true sp enc .ok chunk).recordingAfter = false ∧
    (stream_audio_cycle v true sp enc .ok chunk).uiNotified = true ∧
    (stream_audio_cycle v true sp enc .ok chunk).encWrite = none ∧
    (stream_audio_cycle v true sp enc .ok chunk).loopContinues = true ∧
    (stream_audio_cycle v true sp enc .ok chunk).playWrite =
      playDataF32 v (alignChunk chunk) := by
  rcases henc with rfl | rfl <;>
    · unfold stream_audio_cycle
      rw [if_neg (by simp [hE])]
      simp

/-- Witness for C6: a dead encoder during a 4-byte read at volume 50. -/
theorem c6_encoder_failure_isolated_witness :
    (stream_audio_cycle 50 true true .exited .ok [0, 0, 0, 0]).recordingAfter = false ∧
    (stream_audio_cycle 50 true true .exited .ok [0, 0, 0, 0]).uiNotified = true ∧
    (stream_audio_cycle 50 true true .exited .ok [0, 0, 0, 0]).encWrite = none ∧
    (stream_audio_cycle 50 true true .exited .ok [0, 0, 0, 0]).loopContinues = true ∧
    (stream_audio_cycle 50 true true .exited .ok [0, 0, 0, 0]).playWrite =
      playDataF32 50 (alignChunk [0, 0, 0, 0]) :=
  c6_encoder_failure_isolated 50 true .exited [0, 0, 0, 0] (by decide) (Or.inl rfl)

end Radio
